import Mathlib

/-!
Shallow embedding of the transform engine of gas-buddy/openapi-typescript:
the function transformAll of src/transform/index.ts, and the newer
transformSchema of packages/openapi-typescript/src/transform/index.ts.

The input document is an already-decoded generic tree of mappings and
sequences; we model it as a small JSON-like inductive type.  The leaf
emitters (transformSchemaObjMap, transformPathsObj, transformResponsesObj,
transformRequestBodies, transformHeaderObjMap, transformOperationObj,
getResponseTypes, operationRequestType, queryStringType, getOperationId,
getOperationIdFromPath, comment, tsReadonly) live outside the visible
sources; following the spec they are external collaborators, so the
embedding is parametrized by a record of arbitrary deterministic emitter
functions.  The mutable operation registry that transformPathsObj
populates as a side effect is modelled by letting that emitter also
return the list of registered entries in first-discovery order.
-/

/-- Generic decoded document tree (JSON-like). -/
inductive Json where
  | null : Json
  | str : String → Json
  | obj : List (String × Json) → Json
  | arr : List Json → Json

/-- JavaScript truthiness for the values the engine tests with `if (x)`. -/
def Json.truthy : Json → Bool
  | .null => false
  | .str s => s ≠ ""
  | .obj _ => true
  | .arr _ => true

/-- Object property access: some value when the key is a property. -/
def jsGet (j : Json) (k : String) : Option Json :=
  match j with
  | .obj kvs => (kvs.find? (fun kv => kv.1 = k)).map (fun kv => kv.2)
  | _ => none

/-- Property access combined with a JavaScript truthiness test, as in
`if (schema.paths)`: some value exactly when present and truthy. -/
def truthyGet (j : Json) (k : String) : Option Json :=
  match jsGet j k with
  | some v => if v.truthy then some v else none
  | none => none

/-- Object.keys: the property names of a mapping, in insertion order. -/
def Json.keys : Json → List String
  | .obj kvs => kvs.map (fun kv => kv.1)
  | _ => []

/-- Object.entries: the property pairs of a mapping, in insertion order. -/
def Json.entries : Json → List (String × Json)
  | .obj kvs => kvs
  | _ => []

/-- The character-list core of the JavaScript String.prototype.trim model:
drop whitespace from the front, then (via reverse) from the back. -/
def trimChars (l : List Char) : List Char :=
  ((l.dropWhile Char.isWhitespace).reverse.dropWhile Char.isWhitespace).reverse

/-- Model of JavaScript String.prototype.trim. -/
def trimStr (s : String) : String :=
  String.mk (trimChars s.data)

/-- The base configuration context (GlobalContext). -/
structure Ctx where
  version : Nat
  immutableTypes : Bool
  rawSchema : Bool

/-- A context extended per sub-transform call by spreading the base context
and overriding the transformation-local fields (required set,
globalParameters pool, pathItem back-reference); a field is none when the
call site does not inject it. -/
structure SubCtx where
  base : Ctx
  required : Option (List String)
  globalParameters : Option Json
  pathItem : Option Json

/-- Context spread with only a required set injected. -/
def subWithRequired (c : Ctx) (ks : List String) : SubCtx :=
  ⟨c, some ks, none, none⟩

/-- Context passed through unchanged (no transformation-local additions). -/
def subPlain (c : Ctx) : SubCtx :=
  ⟨c, none, none, none⟩

/-- One entry of the operation registry: operation id, the Operation node
and the owning Path Item node. -/
structure RegEntry where
  id : String
  operation : Json
  pathItem : Json

/-- The external leaf emitters, as arbitrary deterministic functions.
transformPathsObj additionally returns the registry entries it registered,
in the order the operations were first discovered. -/
structure Emitters where
  tsReadonly : Bool → String
  transformSchemaObjMap : Json → SubCtx → String
  transformResponsesObj : Json → SubCtx → String
  transformRequestBodies : Json → SubCtx → String
  transformHeaderObjMap : Json → SubCtx → String
  transformPathsObj : Json → SubCtx → String × List RegEntry
  transformOperationObj : Json → SubCtx → String
  getResponseTypes : String → Json → String
  operationRequestType : String → Json → SubCtx → String
  queryStringType : String → Json → SubCtx → String
  getOperationId : Json → String → String → String
  getOperationIdFromPath : String → String
  comment : Json → String

/-- The fixed closed set of HTTP methods (source line 10). -/
def httpMethods : List String :=
  ["get", "put", "post", "delete", "options", "head", "patch", "trace"]

/-- The globalParameters expression of source lines 37, 124 and 137:
(schema.components and schema.components.parameters) or schema.parameters. -/
def globalParameters (schema : Json) : Option Json :=
  match truthyGet schema "components" with
  | some comps =>
    match truthyGet comps "parameters" with
    | some p => some p
    | none => truthyGet schema "parameters"
  | none => truthyGet schema "parameters"

/-- The paths step (source lines 33 to 40): empty text and empty registry
when schema.paths is absent or falsy, otherwise the paths emitter applied
to the paths node with globalParameters injected. -/
def pathsResult (E : Emitters) (schema : Json) (c : Ctx) : String × List RegEntry :=
  match truthyGet schema "paths" with
  | some p => E.transformPathsObj p ⟨c, none, globalParameters schema, none⟩
  | none => ("", [])

/-- Version 2 definitions section (source lines 45 to 50). -/
def v2Definitions (E : Emitters) (schema : Json) (c : Ctx) : List (String × String) :=
  match truthyGet schema "definitions" with
  | some d => [("definitions", E.transformSchemaObjMap d (subWithRequired c d.keys))]
  | none => []

/-- Version 2 parameters section (source lines 53 to 58). -/
def v2Parameters (E : Emitters) (schema : Json) (c : Ctx) : List (String × String) :=
  match truthyGet schema "parameters" with
  | some p => [("parameters", E.transformSchemaObjMap p (subWithRequired c p.keys))]
  | none => []

/-- Version 2 responses section (source lines 61 to 63): the responses
emitter receives the context unchanged. -/
def v2Responses (E : Emitters) (schema : Json) (c : Ctx) : List (String × String) :=
  match truthyGet schema "responses" with
  | some r => [("responses", E.transformResponsesObj r (subPlain c))]
  | none => []

/-- All three version 2 sections, in source order. -/
def v2Sections (E : Emitters) (schema : Json) (c : Ctx) : List (String × String) :=
  v2Definitions E schema c ++ v2Parameters E schema c ++ v2Responses E schema c

/-- One named container block of the version 3 components section. -/
def componentBlock (rd : String) (name : String) (body : String) : String :=
  "  " ++ rd ++ name ++ ": \x7b\n    " ++ body ++ "\n  \x7d\n"

/-- The version 3 components text (source lines 66 to 112): blocks for
schemas, responses, parameters, requestBodies and headers, in that order;
schemas and parameters get required = their own keys, responses and
requestBodies get the unmodified context, headers gets an empty required
set; an absent or falsy sub-collection contributes nothing. -/
def componentsText (E : Emitters) (schema : Json) (c : Ctx) (rd : String) : String :=
  match truthyGet schema "components" with
  | none => ""
  | some comps =>
    (match truthyGet comps "schemas" with
     | some x => componentBlock rd "schemas" (E.transformSchemaObjMap x (subWithRequired c x.keys))
     | none => "")
    ++ (match truthyGet comps "responses" with
     | some x => componentBlock rd "responses" (E.transformResponsesObj x (subPlain c))
     | none => "")
    ++ (match truthyGet comps "parameters" with
     | some x => componentBlock rd "parameters" (E.transformSchemaObjMap x (subWithRequired c x.keys))
     | none => "")
    ++ (match truthyGet comps "requestBodies" with
     | some x => componentBlock rd "requestBodies" (E.transformRequestBodies x (subPlain c))
     | none => "")
    ++ (match truthyGet comps "headers" with
     | some x => componentBlock rd "headers" (E.transformHeaderObjMap x (subWithRequired c []))
     | none => "")

/-- The version branch (source lines 42 to 113): version 2 emits the flat
sections when present, version 3 always emits a components section, any
other version emits nothing. -/
def versionSections (E : Emitters) (schema : Json) (c : Ctx) (rd : String) :
    List (String × String) :=
  if c.version = 2 then v2Sections E schema c
  else if c.version = 3 then [("components", componentsText E schema c rd)]
  else []

/-- The context extension used for the operations and express sections
(source lines 121 to 125 and 134 to 138): pathItem plus globalParameters. -/
def opSubCtx (c : Ctx) (schema : Json) (pi : Json) : SubCtx :=
  ⟨c, none, globalParameters schema, some pi⟩

/-- One operations-section entry (source lines 118 to 126): an optional
description comment, then a named, optionally read-only entry whose body
is the operation-type rendering. -/
def operationEntryText (E : Emitters) (schema : Json) (c : Ctx) (rd : String)
    (e : RegEntry) : String :=
  (match truthyGet e.operation "description" with
   | some d => E.comment d
   | none => "")
  ++ "  " ++ rd ++ "\"" ++ e.id ++ "\": \x7b\n    "
  ++ E.transformOperationObj e.operation (opSubCtx c schema e.pathItem)
  ++ "\n  \x7d\n"

/-- The operations section text (source lines 116 to 127): empty for an
empty registry, else the concatenation over the registry in order. -/
def operationsText (E : Emitters) (schema : Json) (c : Ctx) (rd : String)
    (ops : List RegEntry) : String :=
  String.join (ops.map (operationEntryText E schema c rd))

/-- One express-section entry (source lines 139 to 148): the four-member
record indexed by the operation id. -/
def expressEntryText (E : Emitters) (schema : Json) (c : Ctx) (e : RegEntry) : String :=
  " \"" ++ e.id ++ "\": \x7b\n    responses: "
  ++ (match truthyGet e.operation "responses" with
      | some r => E.getResponseTypes e.id r
      | none => "void")
  ++ ";\n    request: expressRequest<Request<"
  ++ E.operationRequestType e.id e.operation (opSubCtx c schema e.pathItem)
  ++ ">, SLocals, "
  ++ E.queryStringType e.id e.operation (opSubCtx c schema e.pathItem)
  ++ ">;\n    response: Response<express<SLocals, RLocals>[\"" ++ e.id
  ++ "\"][\"responses\"]>;\n    handler: (req: express<SLocals, RLocals>[\"" ++ e.id
  ++ "\"][\"request\"], res: express<SLocals, RLocals>[\"" ++ e.id
  ++ "\"][\"response\"]) => void | Promise<void>;\n\x7d\n"

/-- The express section text: the concatenation over the registry in order. -/
def expressText (E : Emitters) (schema : Json) (c : Ctx) (ops : List RegEntry) : String :=
  String.join (ops.map (expressEntryText E schema c))

/-- The entries of the paths node, as handed to Object.entries. -/
def pathsEntriesOf (schema : Json) : List (String × Json) :=
  match truthyGet schema "paths" with
  | some p => p.entries
  | none => []

/-- One method member of a handlers entry (source line 158). -/
def handlerMethodText (E : Emitters) (path : String) (m : String) (op : Json) : String :=
  " " ++ m ++ ": express<SLocals, RLocals>[\"" ++ E.getOperationId op m path
  ++ "\"][\"handler\"]\n"

/-- One handlers entry for one path (source lines 155 to 161): the Path
Item entries are walked in their own order and only keys in httpMethods
produce a member. -/
def handlerPathText (E : Emitters) (pm : String × Json) : String :=
  " " ++ E.getOperationIdFromPath pm.1 ++ ": \x7b\n"
  ++ String.join (pm.2.entries.map (fun me =>
       if httpMethods.contains me.1 then handlerMethodText E pm.1 me.1 me.2 else ""))
  ++ " \x7d\n"

/-- The handlers section text (source lines 153 to 162). -/
def handlersText (E : Emitters) (schema : Json) : String :=
  String.join ((pathsEntriesOf schema).map (handlerPathText E))

/-- The full-document pipeline (source lines 32 to 172): paths section,
version branch, operations, express, handlers when the registry is
non-empty, then the trim post-processing over every section. -/
def fullTransform (E : Emitters) (schema : Json) (c : Ctx) : List (String × String) :=
  let rd := E.tsReadonly c.immutableTypes
  let pr := pathsResult E schema c
  (([("paths", pr.1)]
    ++ versionSections E schema c rd
    ++ [("operations", operationsText E schema c rd pr.2)]
    ++ [("express", expressText E schema c pr.2)]
    ++ (if pr.2.isEmpty then [] else [("handlers", handlersText E schema)])).map
    (fun kv => (kv.1, trimStr kv.2)))

/-- transformAll (source lines 12 to 173).  In raw-schema mode with
version 2 or 3 the whole input is treated as a flat schema map and a
single untrimmed section is returned immediately; any other combination
falls through to the full-document pipeline. -/
def transformAll (E : Emitters) (schema : Json) (c : Ctx) : List (String × String) :=
  if c.rawSchema ∧ c.version = 2 then
    [("definitions", E.transformSchemaObjMap schema (subWithRequired c schema.keys))]
  else if c.rawSchema ∧ c.version = 3 then
    [("schemas", E.transformSchemaObjMap schema (subWithRequired c schema.keys))]
  else
    fullTransform E schema c

/-- The external collaborators of the newer transformSchema. -/
structure Emitters2 where
  transformPathsObject : Json → Ctx → String
  transformWebhooksObject : Json → Ctx → String
  transformComponentsObject : Json → Ctx → String
  transformExpress : Json → Ctx → List (String × String)

/-- JavaScript object property assignment: overwrite in place when the key
exists, append otherwise. -/
def setKey (m : List (String × String)) (k v : String) : List (String × String) :=
  if m.any (fun kv => kv.1 = k) then
    m.map (fun kv => if kv.1 = k then (k, v) else kv)
  else m ++ [(k, v)]

/-- Object.assign over a record: fold the additions with setKey. -/
def objAssign (m : List (String × String)) (adds : List (String × String)) :
    List (String × String) :=
  adds.foldl (fun acc kv => setKey acc kv.1 kv.2) m

/-- transformSchema of packages/openapi-typescript/src/transform/index.ts:
paths, webhooks and components are always assigned (empty string when the
source node is absent), then the express sections are merged in when the
document has paths. -/
def transformSchema (E : Emitters2) (schema : Json) (c : Ctx) : List (String × String) :=
  if schema.truthy = false then []
  else
    let o :=
      [("paths", match truthyGet schema "paths" with
        | some p => E.transformPathsObject p c
        | none => "")]
      ++ [("webhooks", match truthyGet schema "webhooks" with
        | some w => E.transformWebhooksObject w c
        | none => "")]
      ++ [("components", match truthyGet schema "components" with
        | some x => E.transformComponentsObject x c
        | none => "")]
    match truthyGet schema "paths" with
    | some p => objAssign o (E.transformExpress p c)
    | none => o

/-- Lookup of a section by name in an output record. -/
def lookupStr (k : String) : List (String × String) → Option String
  | [] => none
  | kv :: t => if kv.1 = k then some kv.2 else lookupStr k t

theorem lookupStr_cons_eq (k v : String) (t : List (String × String)) :
    lookupStr k ((k, v) :: t) = some v := by
  simp [lookupStr]

theorem lookupStr_cons_ne (k k' v : String) (t : List (String × String)) (h : k' ≠ k) :
    lookupStr k ((k', v) :: t) = lookupStr k t := by
  simp [lookupStr, h]

theorem lookupStr_append_none (k : String) (a b : List (String × String))
    (h : lookupStr k a = none) : lookupStr k (a ++ b) = lookupStr k b := by
  induction a with
  | nil => simp
  | cons kv t ih =>
    by_cases hk : kv.1 = k
    · simp [lookupStr, hk] at h
    · simp only [List.cons_append, lookupStr, hk, if_neg hk] at h ⊢
      exact ih h

theorem lookupStr_append_some (k v : String) (a b : List (String × String))
    (h : lookupStr k a = some v) : lookupStr k (a ++ b) = some v := by
  induction a with
  | nil => simp [lookupStr] at h
  | cons kv t ih =>
    by_cases hk : kv.1 = k
    · simp only [lookupStr, if_pos hk] at h
      simp only [List.cons_append, lookupStr, if_pos hk]
      exact h
    · simp only [lookupStr, if_neg hk] at h
      simp only [List.cons_append, lookupStr, if_neg hk]
      exact ih h

theorem lookupStr_map_trim (k : String) (l : List (String × String)) :
    lookupStr k (l.map (fun kv => (kv.1, trimStr kv.2))) = (lookupStr k l).map trimStr := by
  induction l with
  | nil => rfl
  | cons kv t ih =>
    by_cases hk : kv.1 = k <;> simp [lookupStr, hk, ih]

/-- A textual value has a clean left edge and a clean right edge: neither
its first character nor its last character is whitespace. -/
def edgeClean (s : String) : Bool :=
  (match s.data.head? with
   | some c => !c.isWhitespace
   | none => true)
  && (match s.data.reverse.head? with
   | some c => !c.isWhitespace
   | none => true)

theorem head_dropWhile_false (p : Char → Bool) (l : List Char) (c : Char)
    (h : (l.dropWhile p).head? = some c) : p c = false := by
  induction l with
  | nil => simp [List.dropWhile] at h
  | cons a t ih =>
    rw [List.dropWhile_cons] at h
    by_cases hp : p a
    · rw [if_pos hp] at h
      exact ih h
    · rw [if_neg hp] at h
      simp only [List.head?_cons, Option.some.injEq] at h
      rw [← h]
      exact Bool.of_not_eq_true hp

theorem dropWhile_eq_suffix (p : Char → Bool) (l : List Char) :
    ∃ t, t ++ l.dropWhile p = l := by
  induction l with
  | nil => exact ⟨[], rfl⟩
  | cons a t ih =>
    by_cases hp : p a
    · obtain ⟨w, hw⟩ := ih
      refine ⟨a :: w, ?_⟩
      rw [List.dropWhile_cons, if_pos hp, List.cons_append, hw]
    · exact ⟨[], by rw [List.dropWhile_cons, if_neg hp]; rfl⟩

theorem head_append_left (a b : List Char) (h : a ≠ []) : (a ++ b).head? = a.head? := by
  cases a with
  | nil => exact absurd rfl h
  | cons x t => rfl

theorem trimChars_head (l : List Char) (c : Char)
    (h : (trimChars l).head? = some c) : c.isWhitespace = false := by
  rw [trimChars] at h
  obtain ⟨w, hw⟩ :=
    dropWhile_eq_suffix Char.isWhitespace (l.dropWhile Char.isWhitespace).reverse
  have hYne : (l.dropWhile Char.isWhitespace).reverse.dropWhile Char.isWhitespace ≠ [] := by
    intro h0
    rw [h0] at h
    simp at h
  have hrevne : ((l.dropWhile Char.isWhitespace).reverse.dropWhile Char.isWhitespace).reverse
      ≠ [] := by
    simpa using hYne
  have hD : (l.dropWhile Char.isWhitespace).head? = some c := by
    have h2 := congrArg List.reverse hw
    rw [List.reverse_append, List.reverse_reverse] at h2
    rw [← h2, head_append_left _ _ hrevne]
    exact h
  exact head_dropWhile_false _ _ _ hD

theorem trimChars_last (l : List Char) (c : Char)
    (h : (trimChars l).reverse.head? = some c) : c.isWhitespace = false := by
  rw [trimChars, List.reverse_reverse] at h
  exact head_dropWhile_false _ _ _ h

/-- Trimming always yields a value with clean edges. -/
theorem edgeClean_trimStr (s : String) : edgeClean (trimStr s) = true := by
  have hdata : (trimStr s).data = trimChars s.data := rfl
  rw [edgeClean, hdata]
  cases hA : (trimChars s.data).head? with
  | none =>
    cases hB : (trimChars s.data).reverse.head? with
    | none => rfl
    | some c => simp [trimChars_last s.data c hB]
  | some c =>
    cases hB : (trimChars s.data).reverse.head? with
    | none => simp [trimChars_head s.data c hA]
    | some d => simp [trimChars_head s.data c hA, trimChars_last s.data d hB]

theorem lookup_v2_none (E : Emitters) (s : Json) (c : Ctx) (k : String)
    (h1 : k ≠ "definitions") (h2 : k ≠ "parameters") (h3 : k ≠ "responses") :
    lookupStr k (v2Sections E s c) = none := by
  unfold v2Sections v2Definitions v2Parameters v2Responses
  cases hd : truthyGet s "definitions" <;> cases hp : truthyGet s "parameters" <;>
    cases hr : truthyGet s "responses" <;>
    simp [lookupStr, Ne.symm h1, Ne.symm h2, Ne.symm h3]

theorem lookup_vs_none (E : Emitters) (s : Json) (c : Ctx) (rd k : String)
    (h1 : k ≠ "definitions") (h2 : k ≠ "parameters") (h3 : k ≠ "responses")
    (h4 : k ≠ "components") :
    lookupStr k (versionSections E s c rd) = none := by
  unfold versionSections
  by_cases hv2 : c.version = 2
  · rw [if_pos hv2]
    exact lookup_v2_none E s c k h1 h2 h3
  · rw [if_neg hv2]
    by_cases hv3 : c.version = 3
    · rw [if_pos hv3]
      simp [lookupStr, Ne.symm h4]
    · rw [if_neg hv3]
      rfl

theorem lookup_opexh_none (k A B C : String) (b : Bool)
    (ho : k ≠ "operations") (he : k ≠ "express") (hh : k ≠ "handlers") :
    lookupStr k (("operations", A) :: ("express", B) ::
      (if b then ([] : List (String × String)) else [("handlers", C)])) = none := by
  cases b <;> simp [lookupStr, Ne.symm ho, Ne.symm he, Ne.symm hh]

theorem lookup_full_paths (E : Emitters) (s : Json) (c : Ctx) :
    lookupStr "paths" (fullTransform E s c) = some (trimStr (pathsResult E s c).1) := by
  unfold fullTransform
  rw [lookupStr_map_trim]
  simp only [List.append_assoc, List.singleton_append, List.cons_append, List.nil_append]
  rw [lookupStr_cons_eq]
  rfl

theorem lookup_full_operations (E : Emitters) (s : Json) (c : Ctx) :
    lookupStr "operations" (fullTransform E s c) =
      some (trimStr (operationsText E s c (E.tsReadonly c.immutableTypes)
        (pathsResult E s c).2)) := by
  unfold fullTransform
  rw [lookupStr_map_trim]
  simp only [List.append_assoc, List.singleton_append, List.cons_append, List.nil_append]
  rw [lookupStr_cons_ne _ _ _ _ (by decide)]
  rw [lookupStr_append_none _ _ _
    (lookup_vs_none E s c _ _ (by decide) (by decide) (by decide) (by decide))]
  rw [lookupStr_cons_eq]
  rfl

theorem lookup_full_express (E : Emitters) (s : Json) (c : Ctx) :
    lookupStr "express" (fullTransform E s c) =
      some (trimStr (expressText E s c (pathsResult E s c).2)) := by
  unfold fullTransform
  rw [lookupStr_map_trim]
  simp only [List.append_assoc, List.singleton_append, List.cons_append, List.nil_append]
  rw [lookupStr_cons_ne _ _ _ _ (by decide)]
  rw [lookupStr_append_none _ _ _
    (lookup_vs_none E s c _ _ (by decide) (by decide) (by decide) (by decide))]
  rw [lookupStr_cons_ne _ _ _ _ (by decide)]
  rw [lookupStr_cons_eq]
  rfl

theorem lookup_full_handlers (E : Emitters) (s : Json) (c : Ctx) :
    lookupStr "handlers" (fullTransform E s c) =
      if (pathsResult E s c).2.isEmpty then none
      else some (trimStr (handlersText E s)) := by
  unfold fullTransform
  rw [lookupStr_map_trim]
  simp only [List.append_assoc, List.singleton_append, List.cons_append, List.nil_append]
  rw [lookupStr_cons_ne _ _ _ _ (by decide)]
  rw [lookupStr_append_none _ _ _
    (lookup_vs_none E s c _ _ (by decide) (by decide) (by decide) (by decide))]
  rw [lookupStr_cons_ne _ _ _ _ (by decide)]
  rw [lookupStr_cons_ne _ _ _ _ (by decide)]
  cases hb : (pathsResult E s c).2.isEmpty
  · rw [if_neg (by simp)]
    rw [lookupStr_cons_eq]
    rfl
  · rw [if_pos rfl]
    rfl

theorem lookup_full_webhooks (E : Emitters) (s : Json) (c : Ctx) :
    lookupStr "webhooks" (fullTransform E s c) = none := by
  unfold fullTransform
  rw [lookupStr_map_trim]
  simp only [List.append_assoc, List.singleton_append, List.cons_append, List.nil_append]
  rw [lookupStr_cons_ne _ _ _ _ (by decide)]
  rw [lookupStr_append_none _ _ _
    (lookup_vs_none E s c _ _ (by decide) (by decide) (by decide) (by decide))]
  rw [lookup_opexh_none _ _ _ _ _ (by decide) (by decide) (by decide)]
  rfl

theorem lookupStr_append_tail_none (k : String) (a b : List (String × String))
    (h : lookupStr k b = none) : lookupStr k (a ++ b) = lookupStr k a := by
  induction a with
  | nil => simpa using h
  | cons kv t ih =>
    by_cases hk : kv.1 = k
    · simp only [List.cons_append, lookupStr, if_pos hk]
    · simp only [List.cons_append, lookupStr, if_neg hk]
      exact ih

theorem lookup_v2_definitions (E : Emitters) (s : Json) (c : Ctx) :
    lookupStr "definitions" (v2Sections E s c) =
      (truthyGet s "definitions").map
        (fun d => E.transformSchemaObjMap d (subWithRequired c d.keys)) := by
  unfold v2Sections v2Definitions v2Parameters v2Responses
  cases hd : truthyGet s "definitions" <;> cases hp : truthyGet s "parameters" <;>
    cases hr : truthyGet s "responses" <;> simp [lookupStr]

theorem lookup_v2_parameters (E : Emitters) (s : Json) (c : Ctx) :
    lookupStr "parameters" (v2Sections E s c) =
      (truthyGet s "parameters").map
        (fun p => E.transformSchemaObjMap p (subWithRequired c p.keys)) := by
  unfold v2Sections v2Definitions v2Parameters v2Responses
  cases hd : truthyGet s "definitions" <;> cases hp : truthyGet s "parameters" <;>
    cases hr : truthyGet s "responses" <;> simp [lookupStr]

theorem lookup_v2_responses (E : Emitters) (s : Json) (c : Ctx) :
    lookupStr "responses" (v2Sections E s c) =
      (truthyGet s "responses").map
        (fun r => E.transformResponsesObj r (subPlain c)) := by
  unfold v2Sections v2Definitions v2Parameters v2Responses
  cases hd : truthyGet s "definitions" <;> cases hp : truthyGet s "parameters" <;>
    cases hr : truthyGet s "responses" <;> simp [lookupStr]

theorem lookup_full_definitions (E : Emitters) (s : Json) (c : Ctx) :
    lookupStr "definitions" (fullTransform E s c) =
      if c.version = 2 then
        (truthyGet s "definitions").map
          (fun d => trimStr (E.transformSchemaObjMap d (subWithRequired c d.keys)))
      else none := by
  unfold fullTransform
  rw [lookupStr_map_trim]
  simp only [List.append_assoc, List.singleton_append, List.cons_append, List.nil_append]
  rw [lookupStr_cons_ne _ _ _ _ (by decide)]
  rw [lookupStr_append_tail_none _ _ _
    (lookup_opexh_none _ _ _ _ _ (by decide) (by decide) (by decide))]
  unfold versionSections
  by_cases hv2 : c.version = 2
  · rw [if_pos hv2, if_pos hv2, lookup_v2_definitions]
    cases hd : truthyGet s "definitions" <;> simp
  · rw [if_neg hv2, if_neg hv2]
    by_cases hv3 : c.version = 3
    · rw [if_pos hv3]
      simp [lookupStr]
    · rw [if_neg hv3]
      rfl

theorem lookup_full_parameters (E : Emitters) (s : Json) (c : Ctx) :
    lookupStr "parameters" (fullTransform E s c) =
      if c.version = 2 then
        (truthyGet s "parameters").map
          (fun p => trimStr (E.transformSchemaObjMap p (subWithRequired c p.keys)))
      else none := by
  unfold fullTransform
  rw [lookupStr_map_trim]
  simp only [List.append_assoc, List.singleton_append, List.cons_append, List.nil_append]
  rw [lookupStr_cons_ne _ _ _ _ (by decide)]
  rw [lookupStr_append_tail_none _ _ _
    (lookup_opexh_none _ _ _ _ _ (by decide) (by decide) (by decide))]
  unfold versionSections
  by_cases hv2 : c.version = 2
  · rw [if_pos hv2, if_pos hv2, lookup_v2_parameters]
    cases hp : truthyGet s "parameters" <;> simp
  · rw [if_neg hv2, if_neg hv2]
    by_cases hv3 : c.version = 3
    · rw [if_pos hv3]
      simp [lookupStr]
    · rw [if_neg hv3]
      rfl

theorem lookup_full_responses (E : Emitters) (s : Json) (c : Ctx) :
    lookupStr "responses" (fullTransform E s c) =
      if c.version = 2 then
        (truthyGet s "responses").map
          (fun r => trimStr (E.transformResponsesObj r (subPlain c)))
      else none := by
  unfold fullTransform
  rw [lookupStr_map_trim]
  simp only [List.append_assoc, List.singleton_append, List.cons_append, List.nil_append]
  rw [lookupStr_cons_ne _ _ _ _ (by decide)]
  rw [lookupStr_append_tail_none _ _ _
    (lookup_opexh_none _ _ _ _ _ (by decide) (by decide) (by decide))]
  unfold versionSections
  by_cases hv2 : c.version = 2
  · rw [if_pos hv2, if_pos hv2, lookup_v2_responses]
    cases hr : truthyGet s "responses" <;> simp
  · rw [if_neg hv2, if_neg hv2]
    by_cases hv3 : c.version = 3
    · rw [if_pos hv3]
      simp [lookupStr]
    · rw [if_neg hv3]
      rfl

theorem lookup_full_components (E : Emitters) (s : Json) (c : Ctx) :
    lookupStr "components" (fullTransform E s c) =
      if c.version = 3 then
        some (trimStr (componentsText E s c (E.tsReadonly c.immutableTypes)))
      else none := by
  unfold fullTransform
  rw [lookupStr_map_trim]
  simp only [List.append_assoc, List.singleton_append, List.cons_append, List.nil_append]
  rw [lookupStr_cons_ne _ _ _ _ (by decide)]
  rw [lookupStr_append_tail_none _ _ _
    (lookup_opexh_none _ _ _ _ _ (by decide) (by decide) (by decide))]
  unfold versionSections
  by_cases hv2 : c.version = 2
  · rw [if_pos hv2]
    rw [lookup_v2_none E s c "components" (by decide) (by decide) (by decide)]
    rw [if_neg (by omega)]
    rfl
  · rw [if_neg hv2]
    by_cases hv3 : c.version = 3
    · rw [if_pos hv3, if_pos hv3]
      simp [lookupStr]
    · rw [if_neg hv3, if_neg hv3]
      rfl

/-- With rawSchema unset, transformAll is the full-document pipeline. -/
theorem transformAll_nonraw (E : Emitters) (s : Json) (c : Ctx)
    (hr : c.rawSchema = false) : transformAll E s c = fullTransform E s c := by
  unfold transformAll
  rw [if_neg (by simp [hr]), if_neg (by simp [hr])]

/-- With rawSchema set but a version other than 2 and 3, the raw-schema
branch does not return and transformAll is the full-document pipeline. -/
theorem transformAll_raw_other (E : Emitters) (s : Json) (c : Ctx)
    (h2 : c.version ≠ 2) (h3 : c.version ≠ 3) :
    transformAll E s c = fullTransform E s c := by
  unfold transformAll
  rw [if_neg (by simp [h2]), if_neg (by simp [h3])]

theorem lookupStr_isSome_map_set (m : List (String × String)) (k k' v : String) :
    (lookupStr k (m.map (fun kv => if kv.1 = k' then (k', v) else kv))).isSome
      = (lookupStr k m).isSome := by
  induction m with
  | nil => rfl
  | cons kv t ih =>
    have hkey : (if kv.1 = k' then (k', v) else kv).1 = kv.1 := by
      by_cases h : kv.1 = k' <;> simp [h]
    by_cases hk : kv.1 = k
    · simp only [List.map_cons, lookupStr, hkey, if_pos hk, Option.isSome_some]
    · simp only [List.map_cons, lookupStr, hkey, if_neg hk]
      exact ih

theorem lookupStr_isSome_setKey (m : List (String × String)) (k k' v : String)
    (h : (lookupStr k m).isSome = true) :
    (lookupStr k (setKey m k' v)).isSome = true := by
  unfold setKey
  by_cases hc : m.any (fun kv => kv.1 = k') = true
  · rw [if_pos hc, lookupStr_isSome_map_set]
    exact h
  · rw [if_neg hc]
    obtain ⟨w, hw⟩ := Option.isSome_iff_exists.mp h
    rw [lookupStr_append_some k w m [(k', v)] hw]
    rfl

theorem lookupStr_isSome_objAssign (m adds : List (String × String)) (k : String)
    (h : (lookupStr k m).isSome = true) :
    (lookupStr k (objAssign m adds)).isSome = true := by
  induction adds generalizing m with
  | nil => exact h
  | cons kv t ih =>
    unfold objAssign
    simp only [List.foldl_cons]
    exact ih _ (lookupStr_isSome_setKey m k kv.1 kv.2 h)

theorem transformSchema_keys (E : Emitters2) (s : Json) (c : Ctx)
    (hs : s.truthy = true) :
    (lookupStr "paths" (transformSchema E s c)).isSome = true ∧
    (lookupStr "webhooks" (transformSchema E s c)).isSome = true ∧
    (lookupStr "components" (transformSchema E s c)).isSome = true := by
  unfold transformSchema
  rw [if_neg (by simp [hs])]
  cases hp : truthyGet s "paths" with
  | none => refine ⟨?_, ?_, ?_⟩ <;> simp [lookupStr]
  | some p =>
    refine ⟨?_, ?_, ?_⟩ <;>
      exact lookupStr_isSome_objAssign _ _ _ (by simp [lookupStr])

theorem transformSchema_no_paths (E : Emitters2) (s : Json) (c : Ctx)
    (hs : s.truthy = true) (hp : truthyGet s "paths" = none) :
    lookupStr "paths" (transformSchema E s c) = some "" ∧
    (truthyGet s "webhooks" = none →
      lookupStr "webhooks" (transformSchema E s c) = some "") ∧
    (truthyGet s "components" = none →
      lookupStr "components" (transformSchema E s c) = some "") := by
  unfold transformSchema
  rw [if_neg (by simp [hs]), hp]
  refine ⟨by simp [lookupStr], ?_, ?_⟩
  · intro hw
    rw [hw]
    simp [lookupStr]
  · intro hc
    rw [hc]
    simp [lookupStr]

/-- Rendering policy as claim C2 words it: required is the set of the
sub-collection keys for schemas, responses, parameters and requestBodies,
and empty for headers. -/
def claimRenderC2 (E : Emitters) (c : Ctx) (name : String) (x : Json) : String :=
  if name = "responses" then E.transformResponsesObj x (subWithRequired c x.keys)
  else if name = "requestBodies" then E.transformRequestBodies x (subWithRequired c x.keys)
  else if name = "headers" then E.transformHeaderObjMap x (subWithRequired c [])
  else E.transformSchemaObjMap x (subWithRequired c x.keys)

/-- One sub-collection block under the C2 claim policy. -/
def claimBlockC2 (E : Emitters) (c : Ctx) (rd : String) (comps : Json)
    (name : String) : String :=
  match truthyGet comps name with
  | some x => componentBlock rd name (claimRenderC2 E c name x)
  | none => ""

/-- The components section as claim C2 words it. -/
def componentsClaimC2 (E : Emitters) (s : Json) (c : Ctx) : String :=
  let rd := E.tsReadonly c.immutableTypes
  match truthyGet s "components" with
  | none => ""
  | some comps =>
    claimBlockC2 E c rd comps "schemas" ++ claimBlockC2 E c rd comps "responses"
    ++ claimBlockC2 E c rd comps "parameters" ++ claimBlockC2 E c rd comps "requestBodies"
    ++ claimBlockC2 E c rd comps "headers"

/-- Rendering policy as the code actually has it: responses and
requestBodies are rendered with the unmodified context. -/
def amendedRenderC2 (E : Emitters) (c : Ctx) (name : String) (x : Json) : String :=
  if name = "responses" then E.transformResponsesObj x (subPlain c)
  else if name = "requestBodies" then E.transformRequestBodies x (subPlain c)
  else if name = "headers" then E.transformHeaderObjMap x (subWithRequired c [])
  else E.transformSchemaObjMap x (subWithRequired c x.keys)

/-- One sub-collection block under the amended policy. -/
def amendedBlockC2 (E : Emitters) (c : Ctx) (rd : String) (comps : Json)
    (name : String) : String :=
  match truthyGet comps name with
  | some x => componentBlock rd name (amendedRenderC2 E c name x)
  | none => ""

/-- The components section under the amended claim: fixed order schemas,
responses, parameters, requestBodies, headers; absent sub-collections
contribute nothing. -/
def componentsAmendedC2 (E : Emitters) (s : Json) (c : Ctx) : String :=
  let rd := E.tsReadonly c.immutableTypes
  match truthyGet s "components" with
  | none => ""
  | some comps =>
    amendedBlockC2 E c rd comps "schemas" ++ amendedBlockC2 E c rd comps "responses"
    ++ amendedBlockC2 E c rd comps "parameters" ++ amendedBlockC2 E c rd comps "requestBodies"
    ++ amendedBlockC2 E c rd comps "headers"

/-- The engine text coincides with the amended specification text. -/
theorem componentsText_eq_amended (E : Emitters) (s : Json) (c : Ctx) :
    componentsText E s c (E.tsReadonly c.immutableTypes) = componentsAmendedC2 E s c := by
  unfold componentsText componentsAmendedC2
  cases hc : truthyGet s "components" with
  | none => rfl
  | some comps => rfl

/-- The handlers section as claim C3 words it: within each path, one
member per HTTP method present on the Path Item, enumerated in the fixed
canonical order of httpMethods. -/
def handlersCanonicalC3 (E : Emitters) (schema : Json) : String :=
  String.join ((pathsEntriesOf schema).map (fun pm =>
    " " ++ E.getOperationIdFromPath pm.1 ++ ": \x7b\n"
    ++ String.join (httpMethods.map (fun m =>
         match jsGet pm.2 m with
         | some op => handlerMethodText E pm.1 m op
         | none => ""))
    ++ " \x7d\n"))

/-- A sample operation node used by the concrete witnesses. -/
def sampleOp : Json :=
  Json.obj [("responses", Json.obj [("200", Json.str "ok")])]

/-- A sample Path Item owning sampleOp under get. -/
def samplePathItem : Json :=
  Json.obj [("get", sampleOp)]

/-- A sample version 3 document with one path and one component schema. -/
def sampleDoc : Json :=
  Json.obj [("paths", Json.obj [("/pets", samplePathItem)]),
            ("components", Json.obj [("schemas", Json.obj [("Pet", Json.str "s")])])]

/-- A concrete emitter pack used by the witnesses. -/
def Ew : Emitters where
  tsReadonly := fun b => if b then "readonly " else ""
  transformSchemaObjMap := fun _ _ => "SOM"
  transformResponsesObj := fun _ _ => "RSP"
  transformRequestBodies := fun _ _ => "RQB"
  transformHeaderObjMap := fun _ _ => "HDR"
  transformPathsObj := fun _ _ => ("PATHS", [⟨"getPet", sampleOp, samplePathItem⟩])
  transformOperationObj := fun _ _ => "OPER"
  getResponseTypes := fun oid _ => "RT_" ++ oid
  operationRequestType := fun oid _ _ => "REQ_" ++ oid
  queryStringType := fun oid _ _ => "QS_" ++ oid
  getOperationId := fun _ m p => m ++ p
  getOperationIdFromPath := fun p => p
  comment := fun _ => "// d\n"

/-- A concrete emitter pack for the newer transformSchema. -/
def E2w : Emitters2 where
  transformPathsObject := fun _ _ => "P2"
  transformWebhooksObject := fun _ _ => "W2"
  transformComponentsObject := fun _ _ => "C2"
  transformExpress := fun _ _ => [("operations", "O2"), ("express", "X2"), ("handlers", "H2")]

/-- An emitter pack whose responses emitter reveals whether a required set
was injected into its context. -/
def Ereq : Emitters :=
  { Ew with transformResponsesObj := fun _ sc =>
      match sc.required with
      | some _ => "WITHREQ"
      | none => "PLAIN" }

/-- An emitter pack whose schema-map emitter pads its rendering with
surrounding whitespace. -/
def Epad : Emitters :=
  { Ew with transformSchemaObjMap := fun _ _ => " x " }

/-- Version 2 full-document context. -/
def ctx2 : Ctx := ⟨2, false, false⟩

/-- Version 3 full-document context. -/
def ctx3 : Ctx := ⟨3, false, false⟩

/-- Unrecognized-version full-document context. -/
def ctx4 : Ctx := ⟨4, false, false⟩

/-- Version 2 raw-schema context. -/
def ctxRaw2 : Ctx := ⟨2, false, true⟩

/-- Version 3 raw-schema context. -/
def ctxRaw3 : Ctx := ⟨3, false, true⟩

/-- Unrecognized-version raw-schema context. -/
def ctxRaw4 : Ctx := ⟨4, false, true⟩

/-- A raw flat schema map with two top-level keys. -/
def rawDoc : Json :=
  Json.obj [("A", Json.str "a"), ("B", Json.str "b")]

/-- A version 3 document whose components hold only a responses map. -/
def c2CexDoc : Json :=
  Json.obj [("components", Json.obj [("responses", Json.obj [("200", Json.str "x")])])]

/-- A document whose single Path Item lists post before get. -/
def c3CexDoc : Json :=
  Json.obj [("paths", Json.obj
    [("/a", Json.obj [("post", Json.str "A"), ("get", Json.str "B")])])]

/-- C1: with rawSchema set and version 2 or 3, transformAll returns a mapping
with exactly one key, definitions for version 2 and schemas for version 3,
whose value is the schema-map emitter applied to the whole input with
required equal to the set of all top-level input keys; no other key exists. -/
theorem c1_raw_mode_single_section (E : Emitters) (s : Json) (c : Ctx)
    (hr : c.rawSchema = true) (hv : c.version = 2 ∨ c.version = 3) :
    transformAll E s c =
      [((if c.version = 2 then "definitions" else "schemas"),
        E.transformSchemaObjMap s (subWithRequired c s.keys))] := by
  unfold transformAll
  rcases hv with hv | hv
  · rw [if_pos ⟨hr, hv⟩, if_pos hv]
  · have h2 : ¬(c.version = 2) := by omega
    rw [if_neg (fun h => h2 h.2), if_pos ⟨hr, hv⟩, if_neg h2]

/-- C1 witness: the raw-mode theorem applied at a concrete flat schema map
with version 3. -/
theorem c1_raw_mode_single_section_witness :
    ctxRaw3.rawSchema = true ∧ (ctxRaw3.version = 2 ∨ ctxRaw3.version = 3) ∧
    transformAll Ew rawDoc ctxRaw3 =
      [("schemas", Ew.transformSchemaObjMap rawDoc (subWithRequired ctxRaw3 rawDoc.keys))] := by
  refine ⟨rfl, Or.inr rfl, ?_⟩
  have h := c1_raw_mode_single_section Ew rawDoc ctxRaw3 rfl (Or.inr rfl)
  simpa using h

/-- C2 counterexample: with a version 3 document holding only
components.responses, and a responses emitter that reveals whether a
required set was injected, the components section differs from the
rendering the claim describes (required equal to the sub-collection keys
for responses): the engine passes the context unchanged to the responses
emitter. -/
theorem c2_counterexample :
    lookupStr "components" (transformAll Ereq c2CexDoc ctx3)
        ≠ some (trimStr (componentsClaimC2 Ereq c2CexDoc ctx3)) ∧
    lookupStr "components" (transformAll Ereq c2CexDoc ctx3)
        ≠ some (componentsClaimC2 Ereq c2CexDoc ctx3) := by
  exact ⟨by decide, by decide⟩

/-- C2 amended: for version 3 documents the components section is the
trimmed concatenation, in the fixed order schemas, responses, parameters,
requestBodies, headers, of one named block per present sub-collection;
schemas and parameters are rendered with required equal to their own keys,
responses and requestBodies are rendered with the unmodified context, and
headers with an empty required set; absent sub-collections contribute
nothing. -/
theorem c2_amended_components (E : Emitters) (s : Json) (c : Ctx)
    (hr : c.rawSchema = false) (hv : c.version = 3) :
    lookupStr "components" (transformAll E s c) =
      some (trimStr (componentsAmendedC2 E s c)) := by
  rw [transformAll_nonraw E s c hr, lookup_full_components, if_pos hv,
    componentsText_eq_amended]

/-- C2 witness: the amended components theorem at a concrete document. -/
theorem c2_amended_components_witness :
    ctx3.rawSchema = false ∧ ctx3.version = 3 ∧
    lookupStr "components" (transformAll Ew sampleDoc ctx3) =
      some (trimStr (componentsAmendedC2 Ew sampleDoc ctx3)) :=
  ⟨rfl, rfl, c2_amended_components Ew sampleDoc ctx3 rfl rfl⟩

/-- C3 counterexample: a Path Item listing post before get yields handler
members post before get (the order the keys appear on the Path Item), not
the fixed canonical httpMethods order the claim requires. -/
theorem c3_counterexample :
    lookupStr "handlers" (transformAll Ew c3CexDoc ctx3) =
      some ("/a: \x7b\n post: express<SLocals, RLocals>[\"post/a\"][\"handler\"]\n get: express<SLocals, RLocals>[\"get/a\"][\"handler\"]\n \x7d") ∧
    trimStr (handlersCanonicalC3 Ew c3CexDoc) =
      "/a: \x7b\n get: express<SLocals, RLocals>[\"get/a\"][\"handler\"]\n post: express<SLocals, RLocals>[\"post/a\"][\"handler\"]\n \x7d" ∧
    lookupStr "handlers" (transformAll Ew c3CexDoc ctx3)
      ≠ some (trimStr (handlersCanonicalC3 Ew c3CexDoc)) := by
  exact ⟨by decide, by decide, by decide⟩

/-- C3 amended: with a non-empty operation registry the handlers section is
the trimmed concatenation of one entry per path of the paths node, in the
order the paths appear in the document; within each path there is one
member per Path Item key belonging to the fixed closed method set, in the
order the keys appear on the Path Item (not in canonical order); keys
outside the set produce no member and absent methods are omitted. -/
theorem c3_amended_handlers (E : Emitters) (s : Json) (c : Ctx)
    (hr : c.rawSchema = false)
    (hne : (pathsResult E s c).2.isEmpty = false) :
    lookupStr "handlers" (transformAll E s c) =
      some (trimStr (String.join ((pathsEntriesOf s).map (handlerPathText E)))) ∧
    ∀ (pm : String × Json), handlerPathText E pm =
      " " ++ E.getOperationIdFromPath pm.1 ++ ": \x7b\n"
      ++ String.join (pm.2.entries.map (fun me =>
           if httpMethods.contains me.1 then handlerMethodText E pm.1 me.1 me.2 else ""))
      ++ " \x7d\n" := by
  constructor
  · rw [transformAll_nonraw E s c hr, lookup_full_handlers, hne]
    rfl
  · intro pm
    rfl

/-- C3 witness: the amended handlers theorem at a concrete document. -/
theorem c3_amended_handlers_witness :
    ctx3.rawSchema = false ∧ (pathsResult Ew sampleDoc ctx3).2.isEmpty = false ∧
    lookupStr "handlers" (transformAll Ew sampleDoc ctx3) =
      some (trimStr (String.join ((pathsEntriesOf sampleDoc).map (handlerPathText Ew)))) :=
  ⟨rfl, by decide, (c3_amended_handlers Ew sampleDoc ctx3 rfl (by decide)).1⟩

/-- C4 counterexample: for the empty version 2 document the keys webhooks,
definitions and handlers are absent from the transformAll output (the
claim requires every section name present, with empty-string values for
absent source data); and for the empty document the newer transformSchema
omits the operations key as well. -/
theorem c4_counterexample :
    lookupStr "webhooks" (transformAll Ew (Json.obj []) ctx2) = none ∧
    lookupStr "definitions" (transformAll Ew (Json.obj []) ctx2) = none ∧
    lookupStr "handlers" (transformAll Ew (Json.obj []) ctx2) = none ∧
    lookupStr "operations" (transformSchema E2w (Json.obj []) ctx2) = none := by
  exact ⟨by decide, by decide, by decide, by decide⟩

/-- C4 amended: in non-raw mode transformAll always outputs the keys paths,
operations and express, where paths is the empty string when the document
has no truthy paths node and operations and express are the empty string
when the operation registry is empty; webhooks is never a key;
definitions, parameters and responses are keys exactly when the version is
2 and the matching source node is present and truthy; components is a key
exactly when the version is 3; handlers is a key exactly when the
operation registry is non-empty.  The newer transformSchema always outputs
the keys paths, webhooks and components for a truthy document; when the
document has no truthy paths node its paths section is the empty string,
and in that case an absent webhooks or components node likewise yields the
empty string. -/
theorem c4_amended_keys (E : Emitters) (E2 : Emitters2) (s s2 : Json) (c c2 : Ctx)
    (hr : c.rawSchema = false) (hs2 : s2.truthy = true) :
    (lookupStr "paths" (transformAll E s c)).isSome = true ∧
    (lookupStr "operations" (transformAll E s c)).isSome = true ∧
    (lookupStr "express" (transformAll E s c)).isSome = true ∧
    lookupStr "webhooks" (transformAll E s c) = none ∧
    ((lookupStr "definitions" (transformAll E s c)).isSome = true ↔
      (c.version = 2 ∧ (truthyGet s "definitions").isSome = true)) ∧
    ((lookupStr "parameters" (transformAll E s c)).isSome = true ↔
      (c.version = 2 ∧ (truthyGet s "parameters").isSome = true)) ∧
    ((lookupStr "responses" (transformAll E s c)).isSome = true ↔
      (c.version = 2 ∧ (truthyGet s "responses").isSome = true)) ∧
    ((lookupStr "components" (transformAll E s c)).isSome = true ↔ c.version = 3) ∧
    ((lookupStr "handlers" (transformAll E s c)).isSome = true ↔
      (pathsResult E s c).2.isEmpty = false) ∧
    (lookupStr "paths" (transformSchema E2 s2 c2)).isSome = true ∧
    (lookupStr "webhooks" (transformSchema E2 s2 c2)).isSome = true ∧
    (lookupStr "components" (transformSchema E2 s2 c2)).isSome = true ∧
    (truthyGet s "paths" = none →
      lookupStr "paths" (transformAll E s c) = some "") ∧
    ((pathsResult E s c).2.isEmpty = true →
      lookupStr "operations" (transformAll E s c) = some "" ∧
      lookupStr "express" (transformAll E s c) = some "") ∧
    (truthyGet s2 "paths" = none →
      lookupStr "paths" (transformSchema E2 s2 c2) = some "" ∧
      (truthyGet s2 "webhooks" = none →
        lookupStr "webhooks" (transformSchema E2 s2 c2) = some "") ∧
      (truthyGet s2 "components" = none →
        lookupStr "components" (transformSchema E2 s2 c2) = some "")) := by
  rw [transformAll_nonraw E s c hr]
  obtain ⟨t1, t2, t3⟩ := transformSchema_keys E2 s2 c2 hs2
  refine ⟨?_, ?_, ?_, lookup_full_webhooks E s c, ?_, ?_, ?_, ?_, ?_, t1, t2, t3,
    ?_, ?_, fun hp2 => transformSchema_no_paths E2 s2 c2 hs2 hp2⟩
  · rw [lookup_full_paths]; rfl
  · rw [lookup_full_operations]; rfl
  · rw [lookup_full_express]; rfl
  · rw [lookup_full_definitions]
    by_cases hv : c.version = 2
    · rw [if_pos hv]
      cases hd : truthyGet s "definitions" <;> simp [hv]
    · rw [if_neg hv]
      simp [hv]
  · rw [lookup_full_parameters]
    by_cases hv : c.version = 2
    · rw [if_pos hv]
      cases hp : truthyGet s "parameters" <;> simp [hv]
    · rw [if_neg hv]
      simp [hv]
  · rw [lookup_full_responses]
    by_cases hv : c.version = 2
    · rw [if_pos hv]
      cases hq : truthyGet s "responses" <;> simp [hv]
    · rw [if_neg hv]
      simp [hv]
  · rw [lookup_full_components]
    by_cases hv : c.version = 3
    · rw [if_pos hv]
      simp [hv]
    · rw [if_neg hv]
      simp [hv]
  · rw [lookup_full_handlers]
    cases hb : (pathsResult E s c).2.isEmpty <;> simp
  · intro hp
    rw [lookup_full_paths]
    unfold pathsResult
    rw [hp]
    rfl
  · intro he
    have hnil : (pathsResult E s c).2 = [] := by simpa using he
    rw [lookup_full_operations, lookup_full_express, hnil]
    exact ⟨rfl, rfl⟩

/-- C4 witness: the amended key-set theorem at concrete documents. -/
theorem c4_amended_keys_witness :
    ctx3.rawSchema = false ∧ (Json.obj []).truthy = true ∧
    (lookupStr "paths" (transformAll Ew sampleDoc ctx3)).isSome = true :=
  ⟨rfl, rfl, (c4_amended_keys Ew E2w sampleDoc (Json.obj []) ctx3 ctx2 rfl rfl).1⟩

/-- C5: in non-raw mode the express section is the trimmed concatenation,
over the registry entries in first-discovery order, of one record indexed
by the operation id with exactly four members: responses (the response
type union of the responses map, or the void marker when the operation
declares no responses), request (parametrized by the computed request type
and query-string type), response (parametrized by a self-reference into
the express section via the operation id), and handler (a function type
from the request of the entry to its response, returning void or an
asynchronous void). -/
theorem c5_express_section (E : Emitters) (s : Json) (c : Ctx)
    (hr : c.rawSchema = false) :
    lookupStr "express" (transformAll E s c) =
      some (trimStr (String.join (((pathsResult E s c).2).map (expressEntryText E s c)))) ∧
    ∀ (e : RegEntry), expressEntryText E s c e =
      " \"" ++ e.id ++ "\": \x7b\n    responses: "
      ++ (match truthyGet e.operation "responses" with
          | some r => E.getResponseTypes e.id r
          | none => "void")
      ++ ";\n    request: expressRequest<Request<"
      ++ E.operationRequestType e.id e.operation (opSubCtx c s e.pathItem)
      ++ ">, SLocals, "
      ++ E.queryStringType e.id e.operation (opSubCtx c s e.pathItem)
      ++ ">;\n    response: Response<express<SLocals, RLocals>[\"" ++ e.id
      ++ "\"][\"responses\"]>;\n    handler: (req: express<SLocals, RLocals>[\"" ++ e.id
      ++ "\"][\"request\"], res: express<SLocals, RLocals>[\"" ++ e.id
      ++ "\"][\"response\"]) => void | Promise<void>;\n\x7d\n" := by
  constructor
  · rw [transformAll_nonraw E s c hr, lookup_full_express]
    rfl
  · intro e
    rfl

/-- C5 witness: the express theorem at a concrete document with one
registered operation. -/
theorem c5_express_section_witness :
    ctx3.rawSchema = false ∧
    lookupStr "express" (transformAll Ew sampleDoc ctx3) =
      some (trimStr (String.join (((pathsResult Ew sampleDoc ctx3).2).map
        (expressEntryText Ew sampleDoc ctx3)))) :=
  ⟨rfl, (c5_express_section Ew sampleDoc ctx3 rfl).1⟩

/-- C6: an unrecognized version (neither 2 nor 3) in non-raw mode produces
none of the version-specific sections definitions, parameters, responses,
components, while the version-independent sections are produced as usual;
the transform is a total function, so no error arises. -/
theorem c6_unknown_version (E : Emitters) (s : Json) (c : Ctx)
    (hr : c.rawSchema = false) (h2 : c.version ≠ 2) (h3 : c.version ≠ 3) :
    lookupStr "definitions" (transformAll E s c) = none ∧
    lookupStr "parameters" (transformAll E s c) = none ∧
    lookupStr "responses" (transformAll E s c) = none ∧
    lookupStr "components" (transformAll E s c) = none ∧
    lookupStr "paths" (transformAll E s c) = some (trimStr (pathsResult E s c).1) ∧
    lookupStr "operations" (transformAll E s c) =
      some (trimStr (operationsText E s c (E.tsReadonly c.immutableTypes)
        (pathsResult E s c).2)) ∧
    lookupStr "express" (transformAll E s c) =
      some (trimStr (expressText E s c (pathsResult E s c).2)) ∧
    (lookupStr "handlers" (transformAll E s c) =
      if (pathsResult E s c).2.isEmpty then none
      else some (trimStr (handlersText E s))) := by
  rw [transformAll_nonraw E s c hr]
  refine ⟨?_, ?_, ?_, ?_, lookup_full_paths E s c, lookup_full_operations E s c,
    lookup_full_express E s c, lookup_full_handlers E s c⟩
  · rw [lookup_full_definitions, if_neg h2]
  · rw [lookup_full_parameters, if_neg h2]
  · rw [lookup_full_responses, if_neg h2]
  · rw [lookup_full_components, if_neg h3]

/-- C6 witness: the unknown-version theorem at version 4. -/
theorem c6_unknown_version_witness :
    ctx4.rawSchema = false ∧ ctx4.version ≠ 2 ∧ ctx4.version ≠ 3 ∧
    lookupStr "definitions" (transformAll Ew sampleDoc ctx4) = none :=
  ⟨rfl, by decide, by decide,
    (c6_unknown_version Ew sampleDoc ctx4 rfl (by decide) (by decide)).1⟩

/-- C7 counterexample: in raw-schema mode the single section is returned
before the trim loop runs, so a padded emitter rendering reaches the
output with its surrounding whitespace intact, against the claim that
every textual value is trimmed. -/
theorem c7_counterexample :
    lookupStr "schemas" (transformAll Epad rawDoc ctxRaw3) = some " x " ∧
    edgeClean " x " = false := by
  exact ⟨by decide, by decide⟩

/-- C7 amended: in non-raw mode every value of the output mapping has no
leading and no trailing whitespace, whatever padding the leaf emitters
produce; in raw-schema mode with version 2 or 3 the single value is the
emitter rendering unmodified and may keep surrounding whitespace. -/
theorem c7_amended_trimmed (E : Emitters) (s : Json) (c : Ctx)
    (hr : c.rawSchema = false) :
    ∀ kv ∈ transformAll E s c, edgeClean kv.2 = true := by
  rw [transformAll_nonraw E s c hr]
  intro kv hkv
  simp only [fullTransform, List.mem_map] at hkv
  obtain ⟨q, _, hq⟩ := hkv
  rw [← hq]
  exact edgeClean_trimStr q.2

/-- C7 witness: the trimming theorem applied to a concrete output member. -/
theorem c7_amended_trimmed_witness :
    ctx3.rawSchema = false ∧ edgeClean "PATHS" = true :=
  ⟨rfl, c7_amended_trimmed Ew sampleDoc ctx3 rfl ("paths", "PATHS") (by decide)⟩

/-- C8: the engine is a pure function of the document, the context and the
emitter pack, so transforming the same document twice with the same
context yields identical output mappings. -/
theorem c8_deterministic (E : Emitters) (s : Json) (c : Ctx) :
    transformAll E s c = transformAll E s c := rfl

/-- C9: with rawSchema set and a version other than 2 and 3, the raw-schema
short-circuit does not return: transformAll equals the full-document
pipeline, and the output carries the paths, operations and express keys
computed from the input treated as a full document. -/
theorem c9_raw_fallthrough (E : Emitters) (s : Json) (c : Ctx)
    (hr : c.rawSchema = true) (h2 : c.version ≠ 2) (h3 : c.version ≠ 3) :
    transformAll E s c = fullTransform E s c ∧
    (lookupStr "paths" (transformAll E s c)).isSome = true ∧
    (lookupStr "operations" (transformAll E s c)).isSome = true ∧
    (lookupStr "express" (transformAll E s c)).isSome = true := by
  have ht := transformAll_raw_other E s c h2 h3
  refine ⟨ht, ?_, ?_, ?_⟩ <;> rw [ht]
  · rw [lookup_full_paths]; rfl
  · rw [lookup_full_operations]; rfl
  · rw [lookup_full_express]; rfl

/-- C9 witness: the fall-through theorem at a concrete raw context with
version 4. -/
theorem c9_raw_fallthrough_witness :
    ctxRaw4.rawSchema = true ∧ ctxRaw4.version ≠ 2 ∧ ctxRaw4.version ≠ 3 ∧
    transformAll Ew sampleDoc ctxRaw4 = fullTransform Ew sampleDoc ctxRaw4 :=
  ⟨rfl, by decide, by decide,
    (c9_raw_fallthrough Ew sampleDoc ctxRaw4 rfl (by decide) (by decide)).1⟩

/-- C10: in non-raw mode the operations and express keys are always present
(empty strings when the registry is empty), and the handlers key is
present exactly when the registry is non-empty. -/
theorem c10_registry_sections (E : Emitters) (s : Json) (c : Ctx)
    (hr : c.rawSchema = false) :
    lookupStr "operations" (transformAll E s c) =
      some (trimStr (operationsText E s c (E.tsReadonly c.immutableTypes)
        (pathsResult E s c).2)) ∧
    lookupStr "express" (transformAll E s c) =
      some (trimStr (expressText E s c (pathsResult E s c).2)) ∧
    ((pathsResult E s c).2.isEmpty = true →
      lookupStr "operations" (transformAll E s c) = some "" ∧
      lookupStr "express" (transformAll E s c) = some "") ∧
    (lookupStr "handlers" (transformAll E s c)).isSome =
      !(pathsResult E s c).2.isEmpty := by
  rw [transformAll_nonraw E s c hr]
  refine ⟨lookup_full_operations E s c, lookup_full_express E s c, ?_, ?_⟩
  · intro he
    have hnil : (pathsResult E s c).2 = [] := by simpa using he
    rw [lookup_full_operations, lookup_full_express, hnil]
    exact ⟨rfl, rfl⟩
  · rw [lookup_full_handlers]
    cases hb : (pathsResult E s c).2.isEmpty <;> simp

/-- C10 witness: the registry-sections theorem at a concrete document. -/
theorem c10_registry_sections_witness :
    ctx3.rawSchema = false ∧
    lookupStr "operations" (transformAll Ew sampleDoc ctx3) =
      some (trimStr (operationsText Ew sampleDoc ctx3 (Ew.tsReadonly ctx3.immutableTypes)
        (pathsResult Ew sampleDoc ctx3).2)) :=
  ⟨rfl, (c10_registry_sections Ew sampleDoc ctx3 rfl).1⟩
